import Mathlib

/-!
Shallow embedding of the Jackson desktop-assistant core
(`src-tauri/src/audio.rs`, `src-tauri/src/speech_recognition.rs`,
`src-tauri/src/wake_word.rs`) and proofs about the claims of the
specification.

Everything lives in the `Jackson` namespace. Platform effects (cpal
device/config/stream negotiation, SAPI recognition results) are modelled
as explicit environment values or nondeterministic step parameters;
machine state that the Rust code keeps behind `Arc<Mutex<...>>` is
modelled as plain fields, with thread interleavings made explicit by a
small-step transition function on detector states.
-/

namespace Jackson

/-! ## audio.rs -/

/-- Sample encodings distinguished by `capture_audio_stream`
(audio.rs lines 100-125): the three supported `cpal::SampleFormat`s plus
an `other` case carrying the debug description used in the error text. -/
inductive SampleFormat where
  | i16
  | u16
  | f32
  | other (desc : String)
deriving DecidableEq, Repr

/-- Environment of platform results consumed by `capture_audio_stream`:
the default input device (none when absent), the negotiated default
input config (its sample format, or the negotiation error), the result
of `build_input_stream` and of `stream.play()`. -/
structure AudioEnv where
  default_input_device : Option String
  default_input_config : Except String SampleFormat
  build_input_stream : Except String Unit
  play : Except String Unit

/-- A live cpal input stream handle, recorded with the sample format it
was built for. -/
structure Stream where
  format : SampleFormat
deriving DecidableEq, Repr

/-- `AudioCapture` (audio.rs lines 9-13): the capturing flag, whether a
shutdown sender is installed, and the owned stream handle `_stream`. -/
structure AudioCapture where
  is_capturing : Bool
  shutdown_sender : Bool
  _stream : Option Stream
deriving DecidableEq, Repr

/-- `AudioCapture::new` (audio.rs lines 16-22). -/
def AudioCapture.new : AudioCapture :=
  { is_capturing := false, shutdown_sender := false, _stream := none }

/-- `AudioCapture::create_stream::<T>` (audio.rs lines 191-226): building
the input stream can fail (the `?` on `build_input_stream`); on success a
stream handle for the given format is returned.  The per-buffer data
callback it installs is modelled separately by
`create_stream_data_callback`. -/
def AudioCapture.create_stream (env : AudioEnv) (format : SampleFormat) :
    Except String Stream :=
  match env.build_input_stream with
  | .error e => .error e
  | .ok _ => .ok { format := format }

/-- The per-buffer data callback installed by `create_stream`
(audio.rs lines 205-220): drop the buffer when the shared capturing flag
is cleared; otherwise convert every sample to `i16` (`conv` stands for
`i16::from_sample`, applied elementwise) and invoke the user callback
exactly when the converted frame is non-empty.  The result is
`some frame` when the user callback is invoked with `frame`, else
`none`. -/
def AudioCapture.create_stream_data_callback {T : Type} (conv : T → Int)
    (is_capturing : Bool) (data : List T) : Option (List Int) :=
  if !is_capturing then
    none
  else
    let audio_frame : List Int := data.map conv
    if !audio_frame.isEmpty then some audio_frame else none

/-- `AudioCapture::capture_audio_stream` (audio.rs lines 77-130):
fail when no default input device exists; propagate a config-negotiation
error; dispatch on the sample format, rejecting anything other than
I16/U16/F32 with the "Unsupported sample format" error; finally
`stream.play()?`. -/
def AudioCapture.capture_audio_stream (env : AudioEnv) :
    Except String Stream :=
  match env.default_input_device with
  | none => .error "No default input device available"
  | some _device =>
    match env.default_input_config with
    | .error e => .error e
    | .ok config =>
      let built : Except String Stream :=
        match config with
        | .i16 => AudioCapture.create_stream env .i16
        | .u16 => AudioCapture.create_stream env .u16
        | .f32 => AudioCapture.create_stream env .f32
        | .other desc =>
          .error ("Unsupported sample format: " ++ desc)
      match built with
      | .error e => .error e
      | .ok stream =>
        match env.play with
        | .error e => .error e
        | .ok _ => .ok stream

/-- `AudioCapture::start_capture` (audio.rs lines 25-48): short-circuit
`Ok` when `is_capturing` is already set; otherwise set the flag, install
a shutdown sender, then build the stream — the `?` on
`capture_audio_stream` returns the error with the flag still set — and
on success store the stream in `_stream`.  Returns the updated receiver
together with the `Result`. -/
def AudioCapture.start_capture (env : AudioEnv) (self : AudioCapture) :
    AudioCapture × Except String Unit :=
  if self.is_capturing then
    (self, .ok ())
  else
    let self := { self with is_capturing := true }
    let self := { self with shutdown_sender := true }
    match AudioCapture.capture_audio_stream env with
    | .error e => (self, .error e)
    | .ok stream => ({ self with _stream := some stream }, .ok ())

/-- `AudioCapture::stop_capture` (audio.rs lines 266-278): clear the
flag, take the shutdown sender, drop the stream. -/
def AudioCapture.stop_capture (self : AudioCapture) : AudioCapture :=
  { self with is_capturing := false, shutdown_sender := false,
              _stream := none }

/-! ## speech_recognition.rs -/

/-- `SpeechRecognizer` (speech_recognition.rs lines 4-6): an empty
placeholder struct; recognition is delegated to the front end. -/
structure SpeechRecognizer where
deriving DecidableEq, Repr

/-- `SpeechRecognizer::new` (speech_recognition.rs lines 9-12): always
`Ok`. -/
def SpeechRecognizer.new : Except String SpeechRecognizer :=
  .ok {}

/-- `SpeechRecognizer::start_listening` (speech_recognition.rs lines
14-17): prints a warning and returns `Ok(())` without ever invoking the
utterance callback.  The second component lists the texts the stub
delivers to the callback — always `[]`. -/
def SpeechRecognizer.start_listening {β : Type} (_self : SpeechRecognizer)
    (_callback : String → β) : Except String Unit × List String :=
  (.ok (), [])

/-- `SpeechRecognizer::stop_listening` (speech_recognition.rs lines
19-21): prints a warning, does nothing. -/
def SpeechRecognizer.stop_listening (_self : SpeechRecognizer) : Unit :=
  ()

/-! ## wake_word.rs: wake-phrase matching -/

/-- Rust `str::starts_with` on character lists: does the first list
start with the second? -/
def starts_with_chars : List Char → List Char → Bool
  | _, [] => true
  | [], _ :: _ => false
  | h :: hs, n :: ns => h == n && starts_with_chars hs ns

/-- Rust `str::contains` with a string pattern, on character lists: the
needle occurs contiguously somewhere in the haystack. -/
def contains_chars (needle : List Char) : List Char → Bool
  | [] => needle.isEmpty
  | h :: t => starts_with_chars (h :: t) needle || contains_chars needle t

/-- Rust `str::contains` on strings. -/
def str_contains (hay needle : String) : Bool :=
  contains_chars needle.data hay.data

/-- Rust `str::to_lowercase`, per character (faithful on ASCII, which is
all the wake-phrase check compares). -/
def to_lowercase (s : String) : String :=
  ⟨s.data.map Char.toLower⟩

/-- The wake-phrase check of the polling loop (wake_word.rs line 133):
`text.to_lowercase().contains("hey jackson")`. -/
def wake_word_match (text : String) : Bool :=
  str_contains (to_lowercase text) "hey jackson"

/-! ## wake_word.rs: detector state and thread steps

The detector's cross-thread state (`Arc<Mutex<...>>` fields) is modelled
as plain fields of `WakeWordDetector`, and each spawned background
polling thread as a `LoopThread` entry in `loops`.  Thread interleaving
is modelled by the small-step function `WakeWordDetector.step`: each
action is one atomic region of one thread (a region between lock
releases / blocking calls in the Rust code). -/

/-- Where a spawned polling thread (wake_word.rs lines 70-199) currently
is: `spawned` blocked in `recognizer.lock()` at line 74 — the returned
`MutexGuard` is a local of the thread closure that is only dropped when
the closure returns, so a thread past line 74 holds the recognizer
mutex for its whole remaining lifetime and any other spawned thread
stays blocked here until it exits; `setup` holding the mutex and
running the context/grammar setup (lines 75-119); `loopTop` at the
`while` flag check (line 122); `inPoll` inside the blocking
`ctx.recognize` call (line 127); `exited` after the thread returned
(releasing the mutex). -/
inductive LoopPhase where
  | spawned
  | setup
  | loopTop
  | inPoll
  | exited
deriving DecidableEq, Repr

/-- One spawned polling thread: its phase plus a counter of completed
`ctx.recognize` polls (the loop-entry side-effect counter the spec asks
to observe). -/
structure LoopThread where
  phase : LoopPhase
  polls : Nat
deriving DecidableEq, Repr

/-- Does this polling thread hold the recognizer mutex, i.e. is it
executing the loop body between the `recognizer.lock()` at line 74 and
the thread's return?  Only such a thread can run setup or the polling
iteration; a `spawned` thread is still blocked acquiring the lock and
an `exited` thread has released it. -/
def LoopThread.holdsRecognizer (l : LoopThread) : Bool :=
  match l.phase with
  | .setup => true
  | .loopTop => true
  | .inPoll => true
  | _ => false

/-- Is this polling thread currently inside its blocking recognize
call? -/
def LoopThread.inPolling (l : LoopThread) : Bool :=
  match l.phase with
  | .inPoll => true
  | _ => false

/-- Observable callback/event effects of the detector: the registered
wake-word callback invoked with a keyword index (wake_word.rs line 135),
or a `continuous-speech` event emitted for an utterance (line 154). -/
inductive WakeEvent where
  | wakeWordDetected (index : Nat)
  | continuousSpeech (text : String)
deriving DecidableEq, Repr

/-- Is this event a wake-word-detected callback invocation? -/
def WakeEvent.isWakeWordDetected : WakeEvent → Bool
  | .wakeWordDetected _ => true
  | .continuousSpeech _ => false

/-- `WakeWordDetector` (wake_word.rs lines 12-19) together with the
model's observation of its spawned threads and side effects.  The first
five fields are the struct's `Arc<Mutex<...>>` cells (`recognizer` is
kept as presence of the SAPI handle; `app_handle` is irrelevant to the
claims and omitted).  `loops` holds one entry per polling thread spawned
by `start_listening`; `timers` counts pending 30-second follow-up
timeout threads (lines 176-183); `events` records callback invocations
and emitted events in order; `speech_stop_calls` counts calls of
`SpeechRecognizer::stop_listening`; `follow_up_start_failures` counts
executions of the error branch at lines 168-172. -/
structure WakeWordDetector where
  is_listening_for_wake_word : Bool
  is_listening_for_speech : Bool
  recognizer : Option Unit
  audio_capture : Option AudioCapture
  speech_recognizer : Option SpeechRecognizer
  loops : List LoopThread
  timers : Nat
  events : List WakeEvent
  speech_stop_calls : Nat
  follow_up_start_failures : Nat
deriving DecidableEq, Repr

/-- The state right after a successful `WakeWordDetector::new`
(wake_word.rs lines 38-45): both flags false, recognizer and speech
recognizer present, `audio_capture: None`, and no thread spawned or
effect recorded yet. -/
def WakeWordDetector.init : WakeWordDetector :=
  { is_listening_for_wake_word := false
    is_listening_for_speech := false
    recognizer := some ()
    audio_capture := none
    speech_recognizer := some {}
    loops := []
    timers := 0
    events := []
    speech_stop_calls := 0
    follow_up_start_failures := 0 }

/-- Number of active polling loops: threads holding the recognizer
mutex and hence actually executing the loop's setup or polling code.
Threads still blocked at the lock and exited threads do not count. -/
def WakeWordDetector.activeLoops (s : WakeWordDetector) : Nat :=
  s.loops.countP LoopThread.holdsRecognizer

/-- Number of polling threads currently inside a blocking recognize
call. -/
def WakeWordDetector.pollingLoops (s : WakeWordDetector) : Nat :=
  s.loops.countP LoopThread.inPolling

/-- `WakeWordDetector::start_listening` (wake_word.rs lines 53-70), up
to the point where it returns to the caller: if the wake-word flag is
already set, return without any change; otherwise set the flag and spawn
exactly one polling thread.  The new thread begins in the `spawned`
phase: its first statement is `recognizer.lock()` (line 74), which
blocks while any other loop thread is still alive past that line. -/
def WakeWordDetector.start_listening (s : WakeWordDetector) :
    WakeWordDetector :=
  if s.is_listening_for_wake_word then
    s
  else
    { s with is_listening_for_wake_word := true
             loops := s.loops ++ [{ phase := .spawned, polls := 0 }] }

/-- `WakeWordDetector::stop_listening` (wake_word.rs lines 202-229):
clear the wake-word flag, clear the follow-up flag, call `stop_capture`
on any held audio capture and clear the cell, and call the speech
recognizer's `stop_listening` when present.  The Rust function returns
`()` — it cannot fail — so the model is a total function. -/
def WakeWordDetector.stop_listening (s : WakeWordDetector) :
    WakeWordDetector :=
  let s := { s with is_listening_for_wake_word := false }
  let s := { s with is_listening_for_speech := false }
  let s :=
    { s with audio_capture :=
        match s.audio_capture with
        | some capture =>
          let _stopped := capture.stop_capture
          none
        | none => none }
  match s.speech_recognizer with
  | some sr =>
    let _u := sr.stop_listening
    { s with speech_stop_calls := s.speech_stop_calls + 1 }
  | none => s

/-- The body of the match branch for a recognized phrase (wake_word.rs
lines 128-186): when the lower-cased text contains "hey jackson", invoke
the registered callback with index 0; then, if the follow-up flag is not
yet set, set it and — when the speech recognizer is present — start the
stub continuous recognition (whose `Ok`/`Err` result selects between the
success path and the error branch at lines 168-172 that clears the
follow-up flag) and spawn the 30-second timeout thread.  Text without
the wake phrase leaves the state unchanged (only logging). -/
def WakeWordDetector.handle_recognized (s : WakeWordDetector)
    (text : String) : WakeWordDetector :=
  if wake_word_match text then
    let s := { s with events := s.events ++ [.wakeWordDetected 0] }
    if s.is_listening_for_speech then
      s
    else
      let s := { s with is_listening_for_speech := true }
      match s.speech_recognizer with
      | some sr =>
        let s :=
          match (sr.start_listening (fun _text => ())).1 with
          | .ok _ => s
          | .error _ =>
            { s with follow_up_start_failures :=
                       s.follow_up_start_failures + 1
                     is_listening_for_speech := false }
        { s with timers := s.timers + 1 }
      | none => s
  else
    s

/-- Replace polling thread `i`. -/
def WakeWordDetector.setLoop (s : WakeWordDetector) (i : Nat)
    (l : LoopThread) : WakeWordDetector :=
  { s with loops := s.loops.set i l }

/-- Outcome of one blocking `ctx.recognize(Duration::from_millis(500))`
call (wake_word.rs lines 127-195): `noMatch` covers both `Ok(None)`
(timeout — keep listening) and `Err(e)` (logged — keep listening), whose
effects on the state coincide; `recognized text` is `Ok(Some(phrase))`. -/
inductive PollResult where
  | noMatch
  | recognized (text : String)
deriving DecidableEq, Repr

/-- One atomic step of one thread interacting with the detector.
`startCall`/`stopCall` are the public methods run by a caller thread
(neither touches the recognizer mutex: `start_listening` locks only the
wake-word flag and `stop_listening` only the flags, capture and speech
recognizer cells, so callers never block on a running loop);
`acquire i` is polling thread `i`'s `recognizer.lock()` at line 74
succeeding, possible only while no other loop thread holds the
recognizer; `setupFail i`/`setupOk i` resolve thread `i`'s setup
sequence (wake_word.rs lines 75-117: recognizer unavailable,
`SyncContext::new`, grammar build, or `grammar.set_enabled` failing —
all four failure branches clear the wake-word flag and return — versus
all succeeding); `checkFlag i` is the `while` condition check at line
122; `pollReturn i res` is thread `i`'s `ctx.recognize` call returning;
`timerFire` is one pending 30-second timeout thread waking up (lines
177-182). -/
inductive Action where
  | startCall
  | stopCall
  | acquire (i : Nat)
  | setupFail (i : Nat)
  | setupOk (i : Nat)
  | checkFlag (i : Nat)
  | pollReturn (i : Nat) (res : PollResult)
  | timerFire
deriving DecidableEq, Repr

/-- The small-step transition function: `none` when the action is not
enabled in this state (no such thread, or the thread is not at that
program point). -/
def WakeWordDetector.step (s : WakeWordDetector) :
    Action → Option WakeWordDetector
  | .startCall => some s.start_listening
  | .stopCall => some s.stop_listening
  | .acquire i =>
    match s.loops[i]? with
    | some l =>
      if l.phase = .spawned then
        if s.loops.countP LoopThread.holdsRecognizer = 0 then
          some (s.setLoop i { l with phase := .setup })
        else none
      else none
    | none => none
  | .setupFail i =>
    match s.loops[i]? with
    | some l =>
      if l.phase = .setup then
        some { s.setLoop i { l with phase := .exited } with
                 is_listening_for_wake_word := false }
      else none
    | none => none
  | .setupOk i =>
    match s.loops[i]? with
    | some l =>
      if l.phase = .setup then
        some (s.setLoop i { l with phase := .loopTop })
      else none
    | none => none
  | .checkFlag i =>
    match s.loops[i]? with
    | some l =>
      if l.phase = .loopTop then
        if s.is_listening_for_wake_word then
          some (s.setLoop i { l with phase := .inPoll })
        else
          some (s.setLoop i { l with phase := .exited })
      else none
    | none => none
  | .pollReturn i res =>
    match s.loops[i]? with
    | some l =>
      if l.phase = .inPoll then
        match res with
        | .noMatch =>
          some (s.setLoop i { l with phase := .loopTop,
                                     polls := l.polls + 1 })
        | .recognized text =>
          some ((s.handle_recognized text).setLoop i
                  { l with phase := .loopTop, polls := l.polls + 1 })
      else none
    | none => none
  | .timerFire =>
    if s.timers > 0 then
      some { s with timers := s.timers - 1,
                    is_listening_for_speech := false }
    else none

/-- Run a sequence of actions from a state; `none` if any action is not
enabled. -/
def WakeWordDetector.run (s : WakeWordDetector) :
    List Action → Option WakeWordDetector
  | [] => some s
  | a :: rest =>
    match s.step a with
    | some s' => WakeWordDetector.run s' rest
    | none => none

/-- States reachable from a freshly constructed detector under any
interleaving of caller calls and thread steps. -/
inductive WakeWordDetector.Reachable : WakeWordDetector → Prop where
  | init : WakeWordDetector.Reachable WakeWordDetector.init
  | next {s s' : WakeWordDetector} {a : Action} :
      WakeWordDetector.Reachable s → s.step a = some s' →
      WakeWordDetector.Reachable s'

/-- State properties that hold in every reachable detector state: the
SAPI recognizer and the stub speech recognizer stay present, the
`audio_capture` cell is never populated, the dead error branch of the
follow-up start never runs, only wake-word-detected effects are ever
recorded, a polling thread that has not finished setup has not polled,
and — mutual exclusion on the recognizer mutex held across each loop
thread's lifetime — at most one loop thread is active at a time. -/
def WakeWordDetector.Invariant (s : WakeWordDetector) : Prop :=
  s.recognizer = some () ∧
  s.speech_recognizer = some {} ∧
  s.audio_capture = none ∧
  s.follow_up_start_failures = 0 ∧
  s.events.all WakeEvent.isWakeWordDetected = true ∧
  (∀ l ∈ s.loops,
    l.phase = .spawned ∨ l.phase = .setup → l.polls = 0) ∧
  s.loops.countP LoopThread.holdsRecognizer ≤ 1

/-! ## Helper lemmas -/

/-- Replacing element `i` of a list changes a `countP` by the balance of
the predicate on the old and new element. -/
theorem countP_set_balance {α : Type} (p : α → Bool) :
    ∀ (l : List α) (i : Nat) (x y : α), l[i]? = some x →
      (l.set i y).countP p + (if p x then 1 else 0) =
        l.countP p + (if p y then 1 else 0) := by
  intro l
  induction l with
  | nil => intro i x y h; simp at h
  | cons a t ih =>
    intro i x y h
    cases i with
    | zero =>
      simp only [List.getElem?_cons_zero, Option.some.injEq] at h
      subst h
      simp [List.countP_cons]
      omega
    | succ j =>
      simp only [List.getElem?_cons_succ] at h
      have := ih j x y h
      simp [List.countP_cons]
      omega

/-- Replacing an element by one on which the predicate agrees keeps a
`countP` unchanged. -/
theorem countP_set_same {α : Type} (p : α → Bool) (l : List α) (i : Nat)
    (x y : α) (h : l[i]? = some x) (hxy : p x = p y) :
    (l.set i y).countP p = l.countP p := by
  have hbal := countP_set_balance p l i x y h
  rw [hxy] at hbal
  omega

/-- Replacing an element that satisfies the predicate by one that does
not decreases a `countP` by one. -/
theorem countP_set_down {α : Type} (p : α → Bool) (l : List α) (i : Nat)
    (x y : α) (h : l[i]? = some x) (hx : p x = true) (hy : p y = false) :
    (l.set i y).countP p + 1 = l.countP p := by
  have hbal := countP_set_balance p l i x y h
  rw [hx, hy] at hbal
  simp at hbal
  omega

/-- Executing an action trace from a reachable state only reaches
reachable states. -/
theorem run_reachable :
    ∀ (acts : List Action) (s s' : WakeWordDetector),
      WakeWordDetector.Reachable s → WakeWordDetector.run s acts = some s' →
      WakeWordDetector.Reachable s' := by
  intro acts
  induction acts with
  | nil =>
    intro s s' hs h
    simp only [WakeWordDetector.run, Option.some.injEq] at h
    exact h ▸ hs
  | cons a rest ih =>
    intro s s' hs h
    simp only [WakeWordDetector.run] at h
    cases hstep : s.step a with
    | none => rw [hstep] at h; exact absurd h (by simp)
    | some s1 =>
      rw [hstep] at h
      exact ih s1 s' (WakeWordDetector.Reachable.next hs hstep) h

/-- The recognized-phrase branch records exactly one wake-word callback
invocation when the text matches and records nothing otherwise. -/
theorem handle_recognized_events (s : WakeWordDetector) (text : String) :
    (s.handle_recognized text).events =
      if wake_word_match text then s.events ++ [.wakeWordDetected 0]
      else s.events := by
  by_cases hm : wake_word_match text = true
  · by_cases hsp : s.is_listening_for_speech = true
    · simp [WakeWordDetector.handle_recognized, hm, hsp]
    · cases hsr : s.speech_recognizer with
      | some sr =>
        simp [WakeWordDetector.handle_recognized, hm, hsp, hsr,
              SpeechRecognizer.start_listening]
      | none =>
        simp [WakeWordDetector.handle_recognized, hm, hsp, hsr]
  · simp [WakeWordDetector.handle_recognized, hm]

/-- The recognized-phrase branch turns the follow-up flag on exactly
when the text matches the wake phrase (the stub follow-up start always
succeeds, so the clearing error branch never runs). -/
theorem handle_recognized_speech (s : WakeWordDetector) (text : String) :
    (s.handle_recognized text).is_listening_for_speech =
      (wake_word_match text || s.is_listening_for_speech) := by
  by_cases hm : wake_word_match text = true
  · by_cases hsp : s.is_listening_for_speech = true
    · simp [WakeWordDetector.handle_recognized, hm, hsp]
    · cases hsr : s.speech_recognizer with
      | some sr =>
        simp [WakeWordDetector.handle_recognized, hm, hsp, hsr,
              SpeechRecognizer.start_listening]
      | none =>
        simp [WakeWordDetector.handle_recognized, hm, hsp, hsr]
  · simp only [Bool.not_eq_true] at hm
    simp [WakeWordDetector.handle_recognized, hm]

/-- The recognized-phrase branch touches neither the wake-word flag nor
the thread list. -/
theorem handle_recognized_frame (s : WakeWordDetector) (text : String) :
    (s.handle_recognized text).is_listening_for_wake_word =
        s.is_listening_for_wake_word ∧
      (s.handle_recognized text).loops = s.loops := by
  by_cases hm : wake_word_match text = true
  · by_cases hsp : s.is_listening_for_speech = true
    · simp [WakeWordDetector.handle_recognized, hm, hsp]
    · cases hsr : s.speech_recognizer with
      | some sr =>
        simp [WakeWordDetector.handle_recognized, hm, hsp, hsr,
              SpeechRecognizer.start_listening]
      | none =>
        simp [WakeWordDetector.handle_recognized, hm, hsp, hsr]
  · simp [WakeWordDetector.handle_recognized, hm]

/-- The recognized-phrase branch leaves the recognizer, the speech
recognizer, the audio-capture cell and the dead error-branch counter
untouched. -/
theorem handle_recognized_cells (s : WakeWordDetector) (text : String) :
    (s.handle_recognized text).recognizer = s.recognizer ∧
      (s.handle_recognized text).speech_recognizer =
        s.speech_recognizer ∧
      (s.handle_recognized text).audio_capture = s.audio_capture ∧
      (s.handle_recognized text).follow_up_start_failures =
        s.follow_up_start_failures := by
  by_cases hm : wake_word_match text = true
  · by_cases hsp : s.is_listening_for_speech = true
    · simp [WakeWordDetector.handle_recognized, hm, hsp]
    · cases hsr : s.speech_recognizer with
      | some sr =>
        simp [WakeWordDetector.handle_recognized, hm, hsp, hsr,
              SpeechRecognizer.start_listening]
      | none =>
        simp [WakeWordDetector.handle_recognized, hm, hsp, hsr]
  · simp [WakeWordDetector.handle_recognized, hm]

/-- Every action preserves the reachability invariant. -/
theorem step_invariant :
    ∀ (s s' : WakeWordDetector) (a : Action),
      s.Invariant → s.step a = some s' → s'.Invariant := by
  intro s s' a hInv h
  obtain ⟨h1, h2, h3, h4, h5, h6, h7⟩ := hInv
  cases a with
  | startCall =>
    simp only [WakeWordDetector.step, Option.some.injEq] at h
    subst h
    by_cases hw : s.is_listening_for_wake_word = true
    · have hfix : s.start_listening = s := by
        simp [WakeWordDetector.start_listening, hw]
      rw [hfix]
      exact ⟨h1, h2, h3, h4, h5, h6, h7⟩
    · have hfix : s.start_listening =
          { s with is_listening_for_wake_word := true
                   loops := s.loops ++
                     [{ phase := .spawned, polls := 0 }] } := by
        simp [WakeWordDetector.start_listening, hw]
      rw [hfix]
      refine ⟨h1, h2, h3, h4, h5, ?_, ?_⟩
      · intro l hl hph
        rcases List.mem_append.mp hl with hmem | hmem
        · exact h6 l hmem hph
        · simp only [List.mem_singleton] at hmem
          subst hmem
          rfl
      · show List.countP LoopThread.holdsRecognizer (s.loops ++
            ([{ phase := .spawned, polls := 0 }] : List LoopThread)) ≤ 1
        rw [List.countP_append]
        have hzero : List.countP LoopThread.holdsRecognizer
            ([{ phase := .spawned, polls := 0 }] : List LoopThread) =
            0 := rfl
        have h7' : List.countP LoopThread.holdsRecognizer s.loops ≤ 1 :=
          h7
        omega
  | stopCall =>
    simp only [WakeWordDetector.step, Option.some.injEq] at h
    subst h
    have hfix : s.stop_listening =
        { s with is_listening_for_wake_word := false
                 is_listening_for_speech := false
                 audio_capture := none
                 speech_stop_calls := s.speech_stop_calls + 1 } := by
      simp [WakeWordDetector.stop_listening, h2, h3]
    rw [hfix]
    exact ⟨h1, h2, rfl, h4, h5, h6, h7⟩
  | acquire i =>
    simp only [WakeWordDetector.step] at h
    cases hl : s.loops[i]? with
    | none => rw [hl] at h; exact absurd h (by simp)
    | some l =>
      rw [hl] at h
      by_cases hp : l.phase = .spawned
      · simp only [hp, if_true] at h
        by_cases hc : List.countP LoopThread.holdsRecognizer s.loops = 0
        · simp only [hc, if_true, Option.some.injEq] at h
          subst h
          have hbal := countP_set_balance LoopThread.holdsRecognizer
            s.loops i l { l with phase := .setup } hl
          rw [show LoopThread.holdsRecognizer l = false by
                simp [LoopThread.holdsRecognizer, hp],
              show LoopThread.holdsRecognizer
                  { l with phase := .setup } = true from rfl] at hbal
          refine ⟨h1, h2, h3, h4, h5, ?_, ?_⟩
          · intro l' hl' hph
            rcases List.mem_or_eq_of_mem_set hl' with hmem | heq
            · exact h6 l' hmem hph
            · subst heq
              exact h6 l (List.getElem?_mem hl) (Or.inl hp)
          · show List.countP LoopThread.holdsRecognizer
              (s.loops.set i { l with phase := .setup }) ≤ 1
            simp only [Bool.false_eq_true, if_false, if_true] at hbal
            omega
        · simp [hc] at h
      · simp [hp] at h
  | setupFail i =>
    simp only [WakeWordDetector.step] at h
    cases hl : s.loops[i]? with
    | none => rw [hl] at h; exact absurd h (by simp)
    | some l =>
      rw [hl] at h
      by_cases hp : l.phase = .setup
      · simp only [hp, if_true, Option.some.injEq] at h
        subst h
        have hdown := countP_set_down LoopThread.holdsRecognizer s.loops
          i l { l with phase := .exited } hl
          (by simp [LoopThread.holdsRecognizer, hp]) rfl
        refine ⟨h1, h2, h3, h4, h5, ?_, ?_⟩
        · intro l' hl' hph
          rcases List.mem_or_eq_of_mem_set hl' with hmem | heq
          · exact h6 l' hmem hph
          · subst heq
            rcases hph with hcontra | hcontra <;>
              exact absurd hcontra (by simp)
        · show List.countP LoopThread.holdsRecognizer
            (s.loops.set i { l with phase := .exited }) ≤ 1
          have h7' : List.countP LoopThread.holdsRecognizer s.loops ≤
              1 := h7
          omega
      · simp [hp] at h
  | setupOk i =>
    simp only [WakeWordDetector.step] at h
    cases hl : s.loops[i]? with
    | none => rw [hl] at h; exact absurd h (by simp)
    | some l =>
      rw [hl] at h
      by_cases hp : l.phase = .setup
      · simp only [hp, if_true, Option.some.injEq] at h
        subst h
        have hsame := countP_set_same LoopThread.holdsRecognizer s.loops
          i l { l with phase := .loopTop } hl
          (by simp [LoopThread.holdsRecognizer, hp])
        refine ⟨h1, h2, h3, h4, h5, ?_, ?_⟩
        · intro l' hl' hph
          rcases List.mem_or_eq_of_mem_set hl' with hmem | heq
          · exact h6 l' hmem hph
          · subst heq
            rcases hph with hcontra | hcontra <;>
              exact absurd hcontra (by simp)
        · show List.countP LoopThread.holdsRecognizer
            (s.loops.set i { l with phase := .loopTop }) ≤ 1
          have h7' : List.countP LoopThread.holdsRecognizer s.loops ≤
              1 := h7
          omega
      · simp [hp] at h
  | checkFlag i =>
    simp only [WakeWordDetector.step] at h
    cases hl : s.loops[i]? with
    | none => rw [hl] at h; exact absurd h (by simp)
    | some l =>
      rw [hl] at h
      by_cases hp : l.phase = .loopTop
      · simp only [hp, if_true] at h
        by_cases hw : s.is_listening_for_wake_word = true
        · simp only [hw, if_true, Option.some.injEq] at h
          subst h
          have hsame := countP_set_same LoopThread.holdsRecognizer
            s.loops i l { l with phase := .inPoll } hl
            (by simp [LoopThread.holdsRecognizer, hp])
          refine ⟨h1, h2, h3, h4, h5, ?_, ?_⟩
          · intro l' hl' hph
            rcases List.mem_or_eq_of_mem_set hl' with hmem | heq
            · exact h6 l' hmem hph
            · subst heq
              rcases hph with hcontra | hcontra <;>
                exact absurd hcontra (by simp)
          · show List.countP LoopThread.holdsRecognizer
              (s.loops.set i { l with phase := .inPoll }) ≤ 1
            have h7' : List.countP LoopThread.holdsRecognizer s.loops ≤
                1 := h7
            omega
        · simp only [hw, Bool.false_eq_true, if_false,
                     Option.some.injEq] at h
          subst h
          have hdown := countP_set_down LoopThread.holdsRecognizer
            s.loops i l { l with phase := .exited } hl
            (by simp [LoopThread.holdsRecognizer, hp]) rfl
          refine ⟨h1, h2, h3, h4, h5, ?_, ?_⟩
          · intro l' hl' hph
            rcases List.mem_or_eq_of_mem_set hl' with hmem | heq
            · exact h6 l' hmem hph
            · subst heq
              rcases hph with hcontra | hcontra <;>
                exact absurd hcontra (by simp)
          · show List.countP LoopThread.holdsRecognizer
              (s.loops.set i { l with phase := .exited }) ≤ 1
            have h7' : List.countP LoopThread.holdsRecognizer s.loops ≤
                1 := h7
            omega
      · simp [hp] at h
  | pollReturn i res =>
    simp only [WakeWordDetector.step] at h
    cases hl : s.loops[i]? with
    | none => rw [hl] at h; exact absurd h (by simp)
    | some l =>
      rw [hl] at h
      by_cases hp : l.phase = .inPoll
      · simp only [hp, if_true] at h
        have hsame := countP_set_same LoopThread.holdsRecognizer s.loops
          i l { l with phase := .loopTop, polls := l.polls + 1 } hl
          (by simp [LoopThread.holdsRecognizer, hp])
        cases res with
        | noMatch =>
          simp only [Option.some.injEq] at h
          subst h
          refine ⟨h1, h2, h3, h4, h5, ?_, ?_⟩
          · intro l' hl' hph
            rcases List.mem_or_eq_of_mem_set hl' with hmem | heq
            · exact h6 l' hmem hph
            · subst heq
              rcases hph with hcontra | hcontra <;>
                exact absurd hcontra (by simp)
          · show List.countP LoopThread.holdsRecognizer (s.loops.set i
              { l with phase := .loopTop, polls := l.polls + 1 }) ≤ 1
            have h7' : List.countP LoopThread.holdsRecognizer s.loops ≤
                1 := h7
            omega
        | recognized text =>
          simp only [Option.some.injEq] at h
          subst h
          obtain ⟨hc1, hc2, hc3, hc4⟩ := handle_recognized_cells s text
          refine ⟨hc1.trans h1, hc2.trans h2, hc3.trans h3,
                  hc4.trans h4, ?_, ?_, ?_⟩
          · show (s.handle_recognized text).events.all
                WakeEvent.isWakeWordDetected = true
            rw [handle_recognized_events]
            by_cases hm : wake_word_match text = true
            · rw [if_pos hm]
              simp [List.all_append, h5, WakeEvent.isWakeWordDetected]
            · rw [if_neg hm]
              exact h5
          · intro l' hl' hph
            have hloops : ((s.handle_recognized text).setLoop i
                { l with phase := .loopTop, polls := l.polls + 1 }).loops =
                (s.handle_recognized text).loops.set i
                  { l with phase := .loopTop, polls := l.polls + 1 } :=
              rfl
            rw [hloops, (handle_recognized_frame s text).2] at hl'
            rcases List.mem_or_eq_of_mem_set hl' with hmem | heq
            · exact h6 l' hmem hph
            · subst heq
              rcases hph with hcontra | hcontra <;>
                exact absurd hcontra (by simp)
          · show List.countP LoopThread.holdsRecognizer
              ((s.handle_recognized text).loops.set i
                { l with phase := .loopTop, polls := l.polls + 1 }) ≤ 1
            rw [(handle_recognized_frame s text).2]
            have h7' : List.countP LoopThread.holdsRecognizer s.loops ≤
                1 := h7
            omega
      · simp [hp] at h
  | timerFire =>
    simp only [WakeWordDetector.step] at h
    by_cases ht : s.timers > 0
    · simp only [ht, if_true, Option.some.injEq] at h
      subst h
      exact ⟨h1, h2, h3, h4, h5, h6, h7⟩
    · simp [ht] at h


/-- Every reachable detector state satisfies the invariant. -/
theorem reachable_invariant :
    ∀ s : WakeWordDetector, WakeWordDetector.Reachable s →
      s.Invariant := by
  intro s h
  induction h with
  | init =>
    refine ⟨rfl, rfl, rfl, rfl, rfl, ?_, by decide⟩
    intro l hl
    simp [WakeWordDetector.init] at hl
  | next hr hstep ih => exact step_invariant _ _ _ ih hstep

/-- `stop_listening` leaves both listening flags false. -/
theorem stop_listening_flags (s : WakeWordDetector) :
    s.stop_listening.is_listening_for_wake_word = false ∧
      s.stop_listening.is_listening_for_speech = false := by
  cases hsr : s.speech_recognizer <;> cases hac : s.audio_capture <;>
    simp [WakeWordDetector.stop_listening, hsr, hac]

/-- `start_listening` does not touch the follow-up flag. -/
theorem start_listening_speech (s : WakeWordDetector) :
    s.start_listening.is_listening_for_speech =
      s.is_listening_for_speech := by
  by_cases hw : s.is_listening_for_wake_word = true <;>
    simp [WakeWordDetector.start_listening, hw]

/-! ## Claims -/

/-- Claim C4 (code bug): `start_capture` sets `is_capturing` before the
fallible stream construction and never resets it on error, so a failed
`start_capture` leaves the flag `true` (the claim and the spec say it is
left `false`), and a subsequent `start_capture` short-circuits with
`Ok(())` as "already capturing" instead of performing a fresh start.
Evaluated at the concrete failing input "no default input device". -/
theorem start_capture_error_leaves_capturing_flag_set :
    AudioCapture.start_capture
        { default_input_device := none
          default_input_config := .ok .i16
          build_input_stream := .ok ()
          play := .ok () }
        AudioCapture.new =
      ({ is_capturing := true, shutdown_sender := true, _stream := none },
       .error "No default input device available") ∧
    AudioCapture.start_capture
        { default_input_device := none
          default_input_config := .ok .i16
          build_input_stream := .ok ()
          play := .ok () }
        { is_capturing := true, shutdown_sender := true, _stream := none } =
      ({ is_capturing := true, shutdown_sender := true, _stream := none },
       .ok ()) := by
  constructor
  · rfl
  · rfl

/-- Claim C5: `capture_audio_stream` returns the descriptive errors —
"No default input device available" when no input device exists, the
propagated error when config negotiation fails, and "Unsupported sample
format: ..." when the encoding is not I16/U16/F32 — and a
`start_capture` call that hits the unsupported-encoding error leaves
`_stream` as `None` on an idle instance. -/
theorem capture_audio_stream_error_cases :
    (∀ env : AudioEnv, env.default_input_device = none →
        AudioCapture.capture_audio_stream env =
          .error "No default input device available") ∧
    (∀ (env : AudioEnv) (d e : String),
        env.default_input_device = some d →
        env.default_input_config = .error e →
        AudioCapture.capture_audio_stream env = .error e) ∧
    (∀ (env : AudioEnv) (d desc : String),
        env.default_input_device = some d →
        env.default_input_config = .ok (.other desc) →
        AudioCapture.capture_audio_stream env =
          .error ("Unsupported sample format: " ++ desc)) ∧
    (∀ (env : AudioEnv) (self : AudioCapture) (d desc : String),
        self.is_capturing = false → self._stream = none →
        env.default_input_device = some d →
        env.default_input_config = .ok (.other desc) →
        (AudioCapture.start_capture env self).1._stream = none ∧
        (AudioCapture.start_capture env self).2 =
          .error ("Unsupported sample format: " ++ desc)) := by
  refine ⟨?_, ?_, ?_, ?_⟩
  · intro env h
    simp [AudioCapture.capture_audio_stream, h]
  · intro env d e hd he
    simp [AudioCapture.capture_audio_stream, hd, he]
  · intro env d desc hd hc
    simp [AudioCapture.capture_audio_stream, hd, hc]
  · intro env self d desc hcap hstr hd hc
    have herr : AudioCapture.capture_audio_stream env =
        .error ("Unsupported sample format: " ++ desc) := by
      simp [AudioCapture.capture_audio_stream, hd, hc]
    constructor
    · simp [AudioCapture.start_capture, hcap, herr, hstr]
    · simp [AudioCapture.start_capture, hcap, herr]

/-- Claim C5, witness: the error cases evaluated at concrete
environments. -/
theorem capture_audio_stream_error_cases_witness :
    AudioCapture.capture_audio_stream
        { default_input_device := none
          default_input_config := .ok .i16
          build_input_stream := .ok (), play := .ok () } =
      .error "No default input device available" ∧
    AudioCapture.capture_audio_stream
        { default_input_device := some "mic"
          default_input_config := .error "config negotiation failed"
          build_input_stream := .ok (), play := .ok () } =
      .error "config negotiation failed" ∧
    (AudioCapture.start_capture
        { default_input_device := some "mic"
          default_input_config := .ok (.other "I24")
          build_input_stream := .ok (), play := .ok () }
        AudioCapture.new).1._stream = none :=
  ⟨capture_audio_stream_error_cases.1 _ rfl,
   capture_audio_stream_error_cases.2.1 _ "mic" "config negotiation failed"
     rfl rfl,
   (capture_audio_stream_error_cases.2.2.2 _ AudioCapture.new "mic" "I24"
     rfl rfl rfl rfl).1⟩

/-- Claim C8: the per-buffer stream callback drops the buffer without
invoking the user sink when the shared capturing flag is cleared;
otherwise it converts every sample to a 16-bit signed integer — the
converted frame has the same length as the input — and invokes the sink
with the converted frame exactly when the frame is non-empty. -/
theorem create_stream_data_callback_spec :
    ∀ {T : Type} (conv : T → Int) (is_capturing : Bool) (data : List T),
      (is_capturing = false →
        AudioCapture.create_stream_data_callback conv is_capturing data =
          none) ∧
      (is_capturing = true → data = [] →
        AudioCapture.create_stream_data_callback conv is_capturing data =
          none) ∧
      (is_capturing = true → data ≠ [] →
        AudioCapture.create_stream_data_callback conv is_capturing data =
          some (data.map conv) ∧
        (data.map conv).length = data.length) := by
  intro T conv is_capturing data
  refine ⟨?_, ?_, ?_⟩
  · intro h; subst h
    simp [AudioCapture.create_stream_data_callback]
  · intro h hd; subst h; subst hd
    simp [AudioCapture.create_stream_data_callback]
  · intro h hd; subst h
    refine ⟨?_, by simp⟩
    simp [AudioCapture.create_stream_data_callback, hd]

/-- Claim C8, witness: the callback evaluated with the flag cleared and
with the flag set on a concrete two-sample buffer. -/
theorem create_stream_data_callback_spec_witness :
    AudioCapture.create_stream_data_callback (fun n : Int => n) false
      [5, -7] = none ∧
    (AudioCapture.create_stream_data_callback (fun n : Int => n) true
        [5, -7] = some [5, -7] ∧
      ([5, -7].map (fun n : Int => n)).length = [5, -7].length) :=
  ⟨(create_stream_data_callback_spec (fun n : Int => n) false [5, -7]).1
     rfl,
   by
    have h := (create_stream_data_callback_spec (fun n : Int => n) true
      [5, -7]).2.2 rfl (by decide)
    simpa using h⟩

/-- Claim C2: for every recognized phrase text delivered to a polling
thread, the registered callback is invoked with index 0 exactly when the
lower-cased text contains the wake phrase "hey jackson" as a substring;
in particular "please say HEY JACKSON now" fires it and "hey jason" does
not. -/
theorem wake_phrase_callback_iff_match :
    (∀ (s s' : WakeWordDetector) (i : Nat) (text : String),
        s.step (.pollReturn i (.recognized text)) = some s' →
        (wake_word_match text = true →
          s'.events = s.events ++ [.wakeWordDetected 0]) ∧
        (wake_word_match text = false → s'.events = s.events)) ∧
    wake_word_match "please say HEY JACKSON now" = true ∧
    wake_word_match "hey jason" = false := by
  refine ⟨?_, by decide, by decide⟩
  intro s s' i text h
  simp only [WakeWordDetector.step] at h
  cases hl : s.loops[i]? with
  | none => rw [hl] at h; exact absurd h (by simp)
  | some l =>
    rw [hl] at h
    by_cases hp : l.phase = .inPoll
    · simp only [hp, if_true, Option.some.injEq] at h
      subst h
      have hev : ((s.handle_recognized text).setLoop i
          { l with phase := .loopTop, polls := l.polls + 1 }).events =
          (s.handle_recognized text).events := rfl
      rw [hev, handle_recognized_events]
      constructor
      · intro hm; rw [if_pos hm]
      · intro hm; rw [hm]; simp
    · simp [hp] at h

/-- Claim C2, witness: a polling thread in its blocking recognize call
receives "hey jackson"; the callback invocation with index 0 is
recorded. -/
theorem wake_phrase_callback_iff_match_witness :
    (⟨true, true, some (), none, some {}, [⟨.loopTop, 1⟩], 1,
        [.wakeWordDetected 0], 0, 0⟩ : WakeWordDetector).events =
      (⟨true, false, some (), none, some {}, [⟨.inPoll, 0⟩], 0, [], 0,
        0⟩ : WakeWordDetector).events ++ [.wakeWordDetected 0] :=
  (wake_phrase_callback_iff_match.1
      ⟨true, false, some (), none, some {}, [⟨.inPoll, 0⟩], 0, [], 0, 0⟩
      ⟨true, true, some (), none, some {}, [⟨.loopTop, 1⟩], 1,
        [.wakeWordDetected 0], 0, 0⟩
      0 "hey jackson" (by decide)).1 (by decide)

/-- Claim C7: `stop_listening` is a total function (the Rust method
returns `()` and cannot fail): in every state it clears both listening
flags, releases any held audio-capture resource, and calls the follow-up
speech collaborator's stop; called on an idle detector it changes
nothing observable beyond that collaborator stop call. -/
theorem stop_listening_total_spec :
    ∀ s : WakeWordDetector,
      s.stop_listening.is_listening_for_wake_word = false ∧
      s.stop_listening.is_listening_for_speech = false ∧
      s.stop_listening.audio_capture = none ∧
      (s.speech_recognizer = some {} →
        s.stop_listening.speech_stop_calls = s.speech_stop_calls + 1) ∧
      (s.is_listening_for_wake_word = false →
        s.is_listening_for_speech = false →
        s.audio_capture = none →
        s.speech_recognizer = some {} →
        s.stop_listening =
          { s with speech_stop_calls := s.speech_stop_calls + 1 }) := by
  intro s
  cases hsr : s.speech_recognizer with
  | some sr =>
    cases hac : s.audio_capture with
    | some capture =>
      refine ⟨?_, ?_, ?_, ?_, ?_⟩
      · simp [WakeWordDetector.stop_listening, hsr, hac]
      · simp [WakeWordDetector.stop_listening, hsr, hac]
      · simp [WakeWordDetector.stop_listening, hsr, hac]
      · intro _; simp [WakeWordDetector.stop_listening, hsr, hac]
      · intro _ _ hnone _; exact absurd hnone (by simp)
    | none =>
      refine ⟨?_, ?_, ?_, ?_, ?_⟩
      · simp [WakeWordDetector.stop_listening, hsr, hac]
      · simp [WakeWordDetector.stop_listening, hsr, hac]
      · simp [WakeWordDetector.stop_listening, hsr, hac]
      · intro _; simp [WakeWordDetector.stop_listening, hsr, hac]
      · intro hw hs _ _
        simp [WakeWordDetector.stop_listening, hsr, hac, hw, hs]
  | none =>
    refine ⟨?_, ?_, ?_, ?_, ?_⟩
    · simp [WakeWordDetector.stop_listening, hsr]
    · simp [WakeWordDetector.stop_listening, hsr]
    · cases hac : s.audio_capture with
      | some capture => simp [WakeWordDetector.stop_listening, hsr, hac]
      | none => simp [WakeWordDetector.stop_listening, hsr, hac]
    · intro hcontra; exact absurd hcontra (by simp)
    · intro _ _ _ hcontra; exact absurd hcontra (by simp)

/-- Claim C7, witness: stopping a freshly constructed (idle) detector
only records the collaborator stop call. -/
theorem stop_listening_total_spec_witness :
    WakeWordDetector.init.stop_listening =
      { WakeWordDetector.init with speech_stop_calls :=
          WakeWordDetector.init.speech_stop_calls + 1 } :=
  (stop_listening_total_spec WakeWordDetector.init).2.2.2.2
    rfl rfl rfl rfl

/-- Claim C9: the `audio_capture` cell is `None` at construction, stays
`None` in every reachable state under any interleaving (no operation
ever stores a capture into it), and `stop_listening` only ever writes
`None` into it — the release step of `stop_listening` is vacuous. -/
theorem audio_capture_always_none :
    WakeWordDetector.init.audio_capture = none ∧
    (∀ s : WakeWordDetector, WakeWordDetector.Reachable s →
        s.audio_capture = none) ∧
    (∀ s : WakeWordDetector, s.stop_listening.audio_capture = none) := by
  refine ⟨rfl, ?_, ?_⟩
  · intro s hs
    exact (reachable_invariant s hs).2.2.1
  · intro s
    exact (stop_listening_total_spec s).2.2.1

/-- Claim C9, witness: the cell is still `None` after a start call. -/
theorem audio_capture_always_none_witness :
    WakeWordDetector.init.start_listening.audio_capture = none :=
  audio_capture_always_none.2.1 WakeWordDetector.init.start_listening
    (WakeWordDetector.Reachable.next WakeWordDetector.Reachable.init
      (rfl : WakeWordDetector.init.step .startCall =
        some WakeWordDetector.init.start_listening))

/-- Claim C10: `SpeechRecognizer::new` and
`SpeechRecognizer::start_listening` always return `Ok`, and the stub
never invokes the utterance callback; consequently the error branch of
the follow-up start in the wake-word loop is dead — in every reachable
state its counter is zero — and no `continuous-speech` event is ever
recorded. -/
theorem speech_recognizer_stub_dead_branches :
    SpeechRecognizer.new = .ok {} ∧
    (∀ (sr : SpeechRecognizer) (β : Type) (cb : String → β),
        sr.start_listening cb = (.ok (), [])) ∧
    (∀ s : WakeWordDetector, WakeWordDetector.Reachable s →
        s.follow_up_start_failures = 0 ∧
        s.events.all WakeEvent.isWakeWordDetected = true) := by
  refine ⟨rfl, fun sr β cb => rfl, ?_⟩
  intro s hs
  exact ⟨(reachable_invariant s hs).2.2.2.1,
         (reachable_invariant s hs).2.2.2.2.1⟩

/-- Claim C10, witness: the stub evaluated at a concrete callback, and
the dead-branch facts at a state that has gone through a full
wake-word detection. -/
theorem speech_recognizer_stub_dead_branches_witness :
    SpeechRecognizer.start_listening {} (fun text => text.length) =
      (.ok (), []) ∧
    ((⟨true, true, some (), none, some {}, [⟨.loopTop, 1⟩], 1,
        [.wakeWordDetected 0], 0, 0⟩ :
          WakeWordDetector).follow_up_start_failures = 0 ∧
      (⟨true, true, some (), none, some {}, [⟨.loopTop, 1⟩], 1,
        [.wakeWordDetected 0], 0, 0⟩ :
          WakeWordDetector).events.all WakeEvent.isWakeWordDetected =
        true) :=
  ⟨speech_recognizer_stub_dead_branches.2.1 {} Nat
     (fun text => text.length),
   speech_recognizer_stub_dead_branches.2.2
     ⟨true, true, some (), none, some {}, [⟨.loopTop, 1⟩], 1,
       [.wakeWordDetected 0], 0, 0⟩
     (run_reachable
       [.startCall, .acquire 0, .setupOk 0, .checkFlag 0,
        .pollReturn 0 (.recognized "hey jackson")]
       WakeWordDetector.init _ WakeWordDetector.Reachable.init
       (by decide))⟩

/-- Claim C6: a setup failure of the background loop (recognizer
unavailable, context creation, grammar build, or grammar enable failing)
exits that polling thread with the wake-word flag cleared — the detector
reports itself as not listening — and the thread has performed no poll. -/
theorem setup_failure_aborts_loop :
    ∀ (s s' : WakeWordDetector) (i : Nat),
      WakeWordDetector.Reachable s → s.step (.setupFail i) = some s' →
      s'.is_listening_for_wake_word = false ∧
      ∃ l', s'.loops[i]? = some l' ∧ l'.phase = .exited ∧
        l'.polls = 0 := by
  intro s s' i hs h
  simp only [WakeWordDetector.step] at h
  cases hl : s.loops[i]? with
  | none => rw [hl] at h; exact absurd h (by simp)
  | some l =>
    rw [hl] at h
    by_cases hp : l.phase = .setup
    · simp only [hp, if_true, Option.some.injEq] at h
      subst h
      have hpolls : l.polls = 0 :=
        (reachable_invariant s hs).2.2.2.2.2.1 l (List.getElem?_mem hl)
          (Or.inr hp)
      have hlen : i < s.loops.length := by
        rcases List.getElem?_eq_some_iff.mp hl with ⟨hlt, _⟩
        exact hlt
      refine ⟨rfl, { l with phase := .exited }, ?_, rfl, hpolls⟩
      show (s.loops.set i { l with phase := .exited })[i]? =
        some { l with phase := .exited }
      rw [List.getElem?_set_self (by simpa using hlen)]
    · simp [hp] at h

/-- Claim C6, witness: the freshly spawned thread acquires the
recognizer, then its setup fails; the loop exits without polling and
the flag is cleared. -/
theorem setup_failure_aborts_loop_witness :
    (⟨false, false, some (), none, some {}, [⟨.exited, 0⟩], 0, [], 0,
        0⟩ : WakeWordDetector).is_listening_for_wake_word = false ∧
    ∃ l', (⟨false, false, some (), none, some {}, [⟨.exited, 0⟩], 0, [],
        0, 0⟩ : WakeWordDetector).loops[0]? = some l' ∧
      l'.phase = .exited ∧ l'.polls = 0 :=
  setup_failure_aborts_loop
    ⟨true, false, some (), none, some {}, [⟨.setup, 0⟩], 0, [], 0, 0⟩
    ⟨false, false, some (), none, some {}, [⟨.exited, 0⟩], 0, [], 0, 0⟩
    0
    (run_reachable [.startCall, .acquire 0] WakeWordDetector.init
      ⟨true, false, some (), none, some {}, [⟨.setup, 0⟩], 0, [], 0, 0⟩
      WakeWordDetector.Reachable.init (by decide))
    (by decide)

/-- Claim C1: `start_listening` while the wake-word flag is already
true returns without setting any state and without spawning a second
loop; otherwise it sets the flag and spawns exactly one loop thread.
At most one background polling loop is ever active under any
interleaving: every loop thread holds the recognizer mutex from line 74
until it returns, so at most one thread at a time executes the loop's
setup or polling code — a thread spawned while another loop is alive
stays blocked at the lock and never polls alongside it. -/
theorem start_listening_single_active_loop :
    (∀ s : WakeWordDetector, s.is_listening_for_wake_word = true →
        s.start_listening = s) ∧
    (∀ s : WakeWordDetector, s.is_listening_for_wake_word = false →
        s.start_listening.is_listening_for_wake_word = true ∧
        s.start_listening.loops =
          s.loops ++ [{ phase := .spawned, polls := 0 }]) ∧
    (∀ s : WakeWordDetector, WakeWordDetector.Reachable s →
        s.activeLoops ≤ 1) := by
  refine ⟨?_, ?_, ?_⟩
  · intro s hw
    simp [WakeWordDetector.start_listening, hw]
  · intro s hw
    constructor
    · simp [WakeWordDetector.start_listening, hw]
    · simp [WakeWordDetector.start_listening, hw]
  · intro s hs
    exact (reachable_invariant s hs).2.2.2.2.2.2

/-- Claim C1, witness: after a start, a stop, and a second start while
the first loop thread is still polling, the first thread keeps the
recognizer and the newly spawned thread stays blocked at the lock —
exactly one loop is active. -/
theorem start_listening_single_active_loop_witness :
    WakeWordDetector.activeLoops
        ⟨true, false, some (), none, some {},
         [⟨.inPoll, 0⟩, ⟨.spawned, 0⟩], 0, [], 1, 0⟩ ≤ 1 :=
  start_listening_single_active_loop.2.2
    ⟨true, false, some (), none, some {},
     [⟨.inPoll, 0⟩, ⟨.spawned, 0⟩], 0, [], 1, 0⟩
    (run_reachable
      [.startCall, .acquire 0, .setupOk 0, .stopCall, .startCall,
       .checkFlag 0]
      WakeWordDetector.init
      ⟨true, false, some (), none, some {},
       [⟨.inPoll, 0⟩, ⟨.spawned, 0⟩], 0, [], 1, 0⟩
      WakeWordDetector.Reachable.init (by decide))


/-- Claim C3, counterexample: the follow-up flag can become true while
the wake-word flag is false.  After start, the loop enters its blocking
recognize call; `stop_listening` then clears both flags; when the poll
returns "hey jackson" the match branch still runs and sets the
follow-up flag — a false-to-true transition of
`is_listening_for_speech` in a state where
`is_listening_for_wake_word` is false, refuting the claimed invariant. -/
theorem follow_up_set_while_wake_false_counterexample :
    WakeWordDetector.run WakeWordDetector.init
        [.startCall, .acquire 0, .setupOk 0, .checkFlag 0, .stopCall] =
      some ⟨false, false, some (), none, some {}, [⟨.inPoll, 0⟩], 0, [],
            1, 0⟩ ∧
    WakeWordDetector.step
        ⟨false, false, some (), none, some {}, [⟨.inPoll, 0⟩], 0, [], 1,
         0⟩
        (.pollReturn 0 (.recognized "hey jackson")) =
      some ⟨false, true, some (), none, some {}, [⟨.loopTop, 1⟩], 1,
            [.wakeWordDetected 0], 1, 0⟩ := by
  constructor
  · decide
  · decide

/-- Claim C3, amended: after `stop_listening` returns both flags are
false, and the follow-up flag becomes true only through the
recognized-phrase branch of a loop thread that is inside its polling
iteration; a thread enters the polling iteration only when the
wake-word flag is true at the `while` check (the number of in-poll
threads can only grow on a step taken with the flag up) — but
`stop_listening` may clear the flag between that check and the poll
result, so the follow-up flag can still become true with the wake flag
already false. -/
theorem follow_up_transitions_amended :
    (∀ s : WakeWordDetector,
        s.stop_listening.is_listening_for_wake_word = false ∧
        s.stop_listening.is_listening_for_speech = false) ∧
    (∀ (s s' : WakeWordDetector) (a : Action), s.step a = some s' →
        s.is_listening_for_speech = false →
        s'.is_listening_for_speech = true →
        ∃ i text, a = .pollReturn i (.recognized text) ∧
          ∃ l, s.loops[i]? = some l ∧ l.phase = .inPoll) ∧
    (∀ (s s' : WakeWordDetector) (a : Action), s.step a = some s' →
        s.pollingLoops < s'.pollingLoops →
        s.is_listening_for_wake_word = true) := by
  refine ⟨stop_listening_flags, ?_, ?_⟩
  · intro s s' a h hsp hsp'
    cases a with
    | startCall =>
      simp only [WakeWordDetector.step, Option.some.injEq] at h
      subst h
      rw [start_listening_speech, hsp] at hsp'
      exact absurd hsp' (by simp)
    | stopCall =>
      simp only [WakeWordDetector.step, Option.some.injEq] at h
      subst h
      rw [(stop_listening_flags s).2] at hsp'
      exact absurd hsp' (by simp)
    | acquire i =>
      simp only [WakeWordDetector.step] at h
      cases hl : s.loops[i]? with
      | none => rw [hl] at h; exact absurd h (by simp)
      | some l =>
        rw [hl] at h
        by_cases hp : l.phase = .spawned
        · simp only [hp, if_true] at h
          by_cases hc : List.countP LoopThread.holdsRecognizer s.loops =
              0
          · simp only [hc, if_true, Option.some.injEq] at h
            subst h
            exact absurd hsp' (by simp [WakeWordDetector.setLoop, hsp])
          · simp [hc] at h
        · simp [hp] at h
    | setupFail i =>
      simp only [WakeWordDetector.step] at h
      cases hl : s.loops[i]? with
      | none => rw [hl] at h; exact absurd h (by simp)
      | some l =>
        rw [hl] at h
        by_cases hp : l.phase = .setup
        · simp only [hp, if_true, Option.some.injEq] at h
          subst h
          exact absurd hsp' (by simp [WakeWordDetector.setLoop, hsp])
        · simp [hp] at h
    | setupOk i =>
      simp only [WakeWordDetector.step] at h
      cases hl : s.loops[i]? with
      | none => rw [hl] at h; exact absurd h (by simp)
      | some l =>
        rw [hl] at h
        by_cases hp : l.phase = .setup
        · simp only [hp, if_true, Option.some.injEq] at h
          subst h
          exact absurd hsp' (by simp [WakeWordDetector.setLoop, hsp])
        · simp [hp] at h
    | checkFlag i =>
      simp only [WakeWordDetector.step] at h
      cases hl : s.loops[i]? with
      | none => rw [hl] at h; exact absurd h (by simp)
      | some l =>
        rw [hl] at h
        by_cases hp : l.phase = .loopTop
        · simp only [hp, if_true] at h
          by_cases hw : s.is_listening_for_wake_word = true
          · simp only [hw, if_true, Option.some.injEq] at h
            subst h
            exact absurd hsp' (by simp [WakeWordDetector.setLoop, hsp])
          · simp only [hw, Bool.false_eq_true, if_false,
                       Option.some.injEq] at h
            subst h
            exact absurd hsp' (by simp [WakeWordDetector.setLoop, hsp])
        · simp [hp] at h
    | pollReturn i res =>
      simp only [WakeWordDetector.step] at h
      cases hl : s.loops[i]? with
      | none => rw [hl] at h; exact absurd h (by simp)
      | some l =>
        rw [hl] at h
        by_cases hp : l.phase = .inPoll
        · cases res with
          | noMatch =>
            simp only [hp, if_true, Option.some.injEq] at h
            subst h
            exact absurd hsp' (by simp [WakeWordDetector.setLoop, hsp])
          | recognized text =>
            exact ⟨i, text, rfl, l, hl, hp⟩
        · simp [hp] at h
    | timerFire =>
      simp only [WakeWordDetector.step] at h
      by_cases ht : s.timers > 0
      · simp only [ht, if_true, Option.some.injEq] at h
        subst h
        exact absurd hsp' (by simp)
      · simp [ht] at h
  · intro s s' a h hlt
    cases a with
    | startCall =>
      simp only [WakeWordDetector.step, Option.some.injEq] at h
      subst h
      by_cases hw : s.is_listening_for_wake_word = true
      · exact hw
      · have hfix : s.start_listening =
            { s with is_listening_for_wake_word := true
                     loops := s.loops ++
                       [{ phase := .spawned, polls := 0 }] } := by
          simp [WakeWordDetector.start_listening, hw]
        rw [hfix] at hlt
        have heq : WakeWordDetector.pollingLoops
            { s with is_listening_for_wake_word := true
                     loops := s.loops ++
                       [{ phase := .spawned, polls := 0 }] } =
            s.pollingLoops := by
          show List.countP LoopThread.inPolling (s.loops ++
              ([{ phase := .spawned, polls := 0 }] : List LoopThread)) =
            List.countP LoopThread.inPolling s.loops
          rw [List.countP_append]
          rfl
        rw [heq] at hlt
        exact absurd hlt (by omega)
    | stopCall =>
      simp only [WakeWordDetector.step, Option.some.injEq] at h
      subst h
      have heq : s.stop_listening.pollingLoops = s.pollingLoops := by
        cases hsr : s.speech_recognizer <;>
          cases hac : s.audio_capture <;>
            simp [WakeWordDetector.stop_listening,
                  WakeWordDetector.pollingLoops, hsr, hac]
      rw [heq] at hlt
      exact absurd hlt (by omega)
    | acquire i =>
      simp only [WakeWordDetector.step] at h
      cases hl : s.loops[i]? with
      | none => rw [hl] at h; exact absurd h (by simp)
      | some l =>
        rw [hl] at h
        by_cases hp : l.phase = .spawned
        · simp only [hp, if_true] at h
          by_cases hc : List.countP LoopThread.holdsRecognizer s.loops =
              0
          · simp only [hc, if_true, Option.some.injEq] at h
            subst h
            have hsame := countP_set_same LoopThread.inPolling s.loops
              i l { l with phase := .setup } hl
              (by simp [LoopThread.inPolling, hp])
            have heq : WakeWordDetector.pollingLoops
                (s.setLoop i { l with phase := .setup }) =
                s.pollingLoops := hsame
            rw [heq] at hlt
            exact absurd hlt (by omega)
          · simp [hc] at h
        · simp [hp] at h
    | setupFail i =>
      simp only [WakeWordDetector.step] at h
      cases hl : s.loops[i]? with
      | none => rw [hl] at h; exact absurd h (by simp)
      | some l =>
        rw [hl] at h
        by_cases hp : l.phase = .setup
        · simp only [hp, if_true, Option.some.injEq] at h
          subst h
          have hsame := countP_set_same LoopThread.inPolling s.loops i l
            { l with phase := .exited } hl
            (by simp [LoopThread.inPolling, hp])
          have heq : WakeWordDetector.pollingLoops
              { s.setLoop i { l with phase := .exited } with
                  is_listening_for_wake_word := false } =
              s.pollingLoops := hsame
          rw [heq] at hlt
          exact absurd hlt (by omega)
        · simp [hp] at h
    | setupOk i =>
      simp only [WakeWordDetector.step] at h
      cases hl : s.loops[i]? with
      | none => rw [hl] at h; exact absurd h (by simp)
      | some l =>
        rw [hl] at h
        by_cases hp : l.phase = .setup
        · simp only [hp, if_true, Option.some.injEq] at h
          subst h
          have hsame := countP_set_same LoopThread.inPolling s.loops i l
            { l with phase := .loopTop } hl
            (by simp [LoopThread.inPolling, hp])
          have heq : WakeWordDetector.pollingLoops
              (s.setLoop i { l with phase := .loopTop }) =
              s.pollingLoops := hsame
          rw [heq] at hlt
          exact absurd hlt (by omega)
        · simp [hp] at h
    | checkFlag i =>
      simp only [WakeWordDetector.step] at h
      cases hl : s.loops[i]? with
      | none => rw [hl] at h; exact absurd h (by simp)
      | some l =>
        rw [hl] at h
        by_cases hp : l.phase = .loopTop
        · simp only [hp, if_true] at h
          by_cases hw : s.is_listening_for_wake_word = true
          · exact hw
          · simp only [hw, Bool.false_eq_true, if_false,
                       Option.some.injEq] at h
            subst h
            have hsame := countP_set_same LoopThread.inPolling s.loops
              i l { l with phase := .exited } hl
              (by simp [LoopThread.inPolling, hp])
            have heq : WakeWordDetector.pollingLoops
                (s.setLoop i { l with phase := .exited }) =
                s.pollingLoops := hsame
            rw [heq] at hlt
            exact absurd hlt (by omega)
        · simp [hp] at h
    | pollReturn i res =>
      simp only [WakeWordDetector.step] at h
      cases hl : s.loops[i]? with
      | none => rw [hl] at h; exact absurd h (by simp)
      | some l =>
        rw [hl] at h
        by_cases hp : l.phase = .inPoll
        · simp only [hp, if_true] at h
          have hdown := countP_set_down LoopThread.inPolling s.loops i l
            { l with phase := .loopTop, polls := l.polls + 1 } hl
            (by simp [LoopThread.inPolling, hp]) rfl
          cases res with
          | noMatch =>
            simp only [Option.some.injEq] at h
            subst h
            have heq : WakeWordDetector.pollingLoops
                (s.setLoop i
                  { l with phase := .loopTop, polls := l.polls + 1 }) =
                List.countP LoopThread.inPolling (s.loops.set i
                  { l with phase := .loopTop, polls := l.polls + 1 }) :=
              rfl
            rw [heq] at hlt
            have hles : s.pollingLoops = s.loops.countP
                LoopThread.inPolling := rfl
            rw [hles] at hlt
            exact absurd hlt (by omega)
          | recognized text =>
            simp only [Option.some.injEq] at h
            subst h
            have hfr := handle_recognized_frame s text
            have heq : WakeWordDetector.pollingLoops
                ((s.handle_recognized text).setLoop i
                  { l with phase := .loopTop, polls := l.polls + 1 }) =
                List.countP LoopThread.inPolling
                  ((s.handle_recognized text).loops.set i
                    { l with phase := .loopTop
                             polls := l.polls + 1 }) := rfl
            rw [heq, hfr.2] at hlt
            have hles : s.pollingLoops = s.loops.countP
                LoopThread.inPolling := rfl
            rw [hles] at hlt
            exact absurd hlt (by omega)
        · simp [hp] at h
    | timerFire =>
      simp only [WakeWordDetector.step] at h
      by_cases ht : s.timers > 0
      · simp only [ht, if_true, Option.some.injEq] at h
        subst h
        have heq : WakeWordDetector.pollingLoops
            { s with timers := s.timers - 1
                     is_listening_for_speech := false } =
            s.pollingLoops := rfl
        rw [heq] at hlt
        exact absurd hlt (by omega)
      · simp [ht] at h

/-- Claim C3, amended witness: at the concrete stopped-mid-poll state, a
recognized "hey jackson" step is indeed a recognized-phrase poll of an
in-poll thread. -/
theorem follow_up_transitions_amended_witness :
    ∃ i text,
      Action.pollReturn 0 (.recognized "hey jackson") =
        Action.pollReturn i (.recognized text) ∧
      ∃ l, (⟨false, false, some (), none, some {}, [⟨.inPoll, 0⟩], 0,
          [], 1, 0⟩ : WakeWordDetector).loops[i]? = some l ∧
        l.phase = .inPoll :=
  follow_up_transitions_amended.2.1
    ⟨false, false, some (), none, some {}, [⟨.inPoll, 0⟩], 0, [], 1, 0⟩
    ⟨false, true, some (), none, some {}, [⟨.loopTop, 1⟩], 1,
      [.wakeWordDetected 0], 1, 0⟩
    (.pollReturn 0 (.recognized "hey jackson"))
    (by decide) (by decide) (by decide)

end Jackson
